import Mathlib

/-!
A verification development for the news-scraper pipeline
(`newsscraperV2.py`).  The Python source is shallowly embedded: pure
string manipulation is translated to executable Lean functions on
`String`/`List Char`, HTTP fetching and HTML parsing (external
libraries `requests`/`BeautifulSoup`) are abstracted as explicit fetch
results and parsed-page values passed in as parameters, the external
sentiment model (TextBlob) and readability scorer (textstat) are
abstracted as rational-valued functions, and Python floats are
modelled as rationals (every number the pipeline produces is a
rational rounded to a fixed number of decimals).
-/

namespace NewsScraper

/-- The whitespace test of Python's `str.split()` with no separator
argument (ASCII whitespace: space, tab, newline, carriage return,
vertical tab, form feed). -/
def pyIsSpace (c : Char) : Bool :=
  c = ' ' || c = '\t' || c = '\n' || c = '\r' || c = Char.ofNat 11 || c = Char.ofNat 12

/-- Worker for `pysplit`: scan the character list, accumulating the
current word (reversed); words are maximal runs of non-whitespace, and
empty pieces are dropped, as Python's `str.split()` does. -/
def pysplitAux : List Char → List Char → List String
  | [], cur => if cur.isEmpty then [] else [⟨cur.reverse⟩]
  | c :: rest, cur =>
    if pyIsSpace c then
      if cur.isEmpty then pysplitAux rest []
      else (⟨cur.reverse⟩ : String) :: pysplitAux rest []
    else pysplitAux rest (c :: cur)

/-- Python's `text.split()`: split on runs of whitespace, dropping
empty tokens. -/
def pysplit (s : String) : List String := pysplitAux s.data []

/-- Python's `s.strip(chars)`: remove from both ends every character
that occurs in `chars`. -/
def pystrip (chars : List Char) (s : String) : String :=
  ⟨((s.data.dropWhile chars.contains).reverse.dropWhile chars.contains).reverse⟩

/-- The punctuation characters stripped by `analyze_seo`
(the Python literal `".,!?;:()[]\"'"`). -/
def punctChars : List Char :=
  ['.', ',', '!', '?', ';', ':', '(', ')', '[', ']', '\"', '\'']

/-- Python's `str.lower()` (ASCII case mapping suffices for the
characters the pipeline handles). -/
def toLowerStr (s : String) : String := ⟨s.data.map Char.toLower⟩

/-- Python's `s.startswith(p)`. -/
def pyStartsWith (s p : String) : Bool := p.data.isPrefixOf s.data

/-- Python's `sep.join(l)`. -/
def joinWith (sep : String) : List String → String
  | [] => ""
  | x :: xs => xs.foldl (fun acc s => acc ++ sep ++ s) x

/-- Python's built-in `round` to the nearest integer: ties go to the
even integer (banker's rounding). -/
def pyround (q : ℚ) : ℤ :=
  if q - ⌊q⌋ < 1/2 then ⌊q⌋
  else if 1/2 < q - ⌊q⌋ then ⌊q⌋ + 1
  else if ⌊q⌋ % 2 = 0 then ⌊q⌋ else ⌊q⌋ + 1

/-- Python's `round(q, n)` for rationals: round `q` to `n` decimal
places. -/
def roundTo (n : ℕ) (q : ℚ) : ℚ := (pyround (q * 10 ^ n) : ℚ) / 10 ^ n

theorem pyround_le_add_half (q : ℚ) : (pyround q : ℚ) ≤ q + 1/2 := by
  have h0 : ((⌊q⌋ : ℤ) : ℚ) ≤ q := Int.floor_le q
  have h1 : q < (⌊q⌋ : ℚ) + 1 := Int.lt_floor_add_one q
  unfold pyround
  split_ifs <;> push_cast <;> linarith

theorem sub_half_le_pyround (q : ℚ) : q - 1/2 ≤ (pyround q : ℚ) := by
  have h0 : ((⌊q⌋ : ℤ) : ℚ) ≤ q := Int.floor_le q
  have h1 : q < (⌊q⌋ : ℚ) + 1 := Int.lt_floor_add_one q
  unfold pyround
  split_ifs <;> push_cast <;> linarith

/-- Evaluation rule for `pyround` when the fractional part is below a
half. -/
theorem pyround_eq_of_lt_half (q : ℚ) (f : ℤ) (h0 : (f : ℚ) ≤ q)
    (h1 : q < f + 1) (h2 : q - f < 1/2) : pyround q = f := by
  have hf : ⌊q⌋ = f := by
    rw [Int.floor_eq_iff]
    · exact ⟨h0, h1⟩
  unfold pyround
  rw [hf]
  rw [if_pos h2]

/-- Evaluation rule for `pyround` when the fractional part is above a
half. -/
theorem pyround_eq_of_half_lt (q : ℚ) (f : ℤ) (h0 : (f : ℚ) ≤ q)
    (h1 : q < f + 1) (h2 : 1/2 < q - f) : pyround q = f + 1 := by
  have hf : ⌊q⌋ = f := by
    rw [Int.floor_eq_iff]
    · exact ⟨h0, h1⟩
  unfold pyround
  rw [hf]
  rw [if_neg (by linarith), if_pos h2]

theorem pyround_intCast (n : ℤ) : pyround (n : ℚ) = n := by
  refine pyround_eq_of_lt_half _ n le_rfl ?_ ?_ <;> norm_num

/-- `roundTo n` moves a rational by at most half a unit in the last
place, upward. -/
theorem roundTo_le (n : ℕ) (q : ℚ) : roundTo n q ≤ q + 1 / (2 * 10 ^ n) := by
  have hp : (0 : ℚ) < 10 ^ n := by positivity
  have h := pyround_le_add_half (q * 10 ^ n)
  unfold roundTo
  rw [div_le_iff₀ hp]
  calc (pyround (q * 10 ^ n) : ℚ) ≤ q * 10 ^ n + 1/2 := h
    _ = (q + 1 / (2 * 10 ^ n)) * 10 ^ n := by field_simp; ring

/-- `roundTo n` moves a rational by at most half a unit in the last
place, downward. -/
theorem le_roundTo (n : ℕ) (q : ℚ) : q - 1 / (2 * 10 ^ n) ≤ roundTo n q := by
  have hp : (0 : ℚ) < 10 ^ n := by positivity
  have h := sub_half_le_pyround (q * 10 ^ n)
  unfold roundTo
  rw [le_div_iff₀ hp]
  calc (q - 1 / (2 * 10 ^ n)) * 10 ^ n = q * 10 ^ n - 1/2 := by field_simp; ring
    _ ≤ (pyround (q * 10 ^ n) : ℚ) := h

/-- The fixed set of English stopwords.  Modelled from the spec: the
Python module loads `nltk.corpus.stopwords.words("english")` at
process start; that corpus resource is external to the repository, so
its standard contents (the NLTK English stopword list) are transcribed
here. -/
def english_stopwords : List String :=
  ["i", "me", "my", "myself", "we", "our", "ours", "ourselves", "you",
   "you're", "you've", "you'll", "you'd", "your", "yours", "yourself",
   "yourselves", "he", "him", "his", "himself", "she", "she's", "her",
   "hers", "herself", "it", "it's", "its", "itself", "they", "them",
   "their", "theirs", "themselves", "what", "which", "who", "whom",
   "this", "that", "that'll", "these", "those", "am", "is", "are",
   "was", "were", "be", "been", "being", "have", "has", "had",
   "having", "do", "does", "did", "doing", "a", "an", "the", "and",
   "but", "if", "or", "because", "as", "until", "while", "of", "at",
   "by", "for", "with", "about", "against", "between", "into",
   "through", "during", "before", "after", "above", "below", "to",
   "from", "up", "down", "in", "out", "on", "off", "over", "under",
   "again", "further", "then", "once", "here", "there", "when",
   "where", "why", "how", "all", "any", "both", "each", "few", "more",
   "most", "other", "some", "such", "no", "nor", "not", "only", "own",
   "same", "so", "than", "too", "very", "s", "t", "can", "will",
   "just", "don", "don't", "should", "should've", "now", "d", "ll",
   "m", "o", "re", "ve", "y", "ain", "aren", "aren't", "couldn",
   "couldn't", "didn", "didn't", "doesn", "doesn't", "hadn", "hadn't",
   "hasn", "hasn't", "haven", "haven't", "isn", "isn't", "ma",
   "mightn", "mightn't", "mustn", "mustn't", "needn", "needn't",
   "shan", "shan't", "shouldn", "shouldn't", "wasn", "wasn't",
   "weren", "weren't", "won", "won't", "wouldn", "wouldn't"]

/-- `analyze_sentiment` from the source.  The external TextBlob model
is abstracted as the parameter `polarity` (the spec describes it as a
lexicon-based model returning a polarity in `[-1.0, 1.0]`).  Mirrors
the Python: an empty text or a text starting with the literal
`"Error"` short-circuits to `0.0`; otherwise the model's polarity is
rounded to 3 decimals. -/
def analyze_sentiment (polarity : String → ℚ) (text : String) : ℚ :=
  if text = "" ∨ pyStartsWith text "Error" then 0
  else roundTo 3 (polarity text)

/-- Worker for `dedupFirst`: keep the first occurrence of each
element, skipping those already `seen`. -/
def dedupFirstAux (seen : List String) : List String → List String
  | [] => []
  | x :: xs =>
    if seen.contains x then dedupFirstAux seen xs
    else x :: dedupFirstAux (x :: seen) xs

/-- The distinct elements of a list in first-occurrence order: the key
order of a Python `Counter`/`dict` built by insertion. -/
def dedupFirst (l : List String) : List String := dedupFirstAux [] l

/-- The readability slots of `analyze_seo`: either the string `"N/A"`
or a numeric score. -/
inductive ReadValue where
  | na : ReadValue
  | num : ℚ → ReadValue
deriving DecidableEq

/-- `analyze_seo` from the source.  The external `textstat` scorers
are abstracted as the parameters `fre` (Flesch Reading Ease) and `fkg`
(Flesch-Kincaid Grade); the stopword set is the parameter `stop`.
The keyword-density dict is modelled as an association list in key
insertion order (`Counter` preserves first-occurrence order).
Mirrors the Python: split on whitespace, strip punctuation and
lowercase each word, drop empties and stopwords, then map every token
occurring more than twice to `round(count / word_count * 100, 2)`. -/
def analyze_seo (stop : List String) (fre fkg : String → ℚ) (text : String) :
    List (String × ℚ) × ReadValue × ReadValue :=
  if text = "" then ([], .na, .na)
  else
    let words := pysplit text
    let word_count := words.length
    if word_count = 0 then ([], .na, .na)
    else
      let cleaned_words := words.map (fun w => toLowerStr (pystrip punctChars w))
      let filtered_words := cleaned_words.filter
        (fun w => w != "" && !stop.contains w)
      let keyword_density := (dedupFirst filtered_words).filterMap (fun w =>
        let c := filtered_words.count w
        if 2 < c then some (w, roundTo 2 ((c : ℚ) / word_count * 100)) else none)
      (keyword_density, .num (fre text), .num (fkg text))

/-- The raw whitespace-split word count of a text (`len(text.split())`). -/
def word_count (text : String) : ℕ := (pysplit text).length

/-- The normalized (punctuation-stripped, lowercased) tokens of a
text, in order. -/
def cleaned_words (text : String) : List String :=
  (pysplit text).map (fun w => toLowerStr (pystrip punctChars w))

/-- The normalized tokens that are non-empty and not stopwords. -/
def filtered_words (stop : List String) (text : String) : List String :=
  (cleaned_words text).filter (fun w => w != "" && !stop.contains w)

/-- An element of a parsed listing page, as the scraper sees it: its
whitespace-trimmed text (`get_text(strip=True)`) and its `href`
attribute when present. -/
structure Elem where
  text : String
  href : Option String
deriving DecidableEq

/-- The outcome of the listing-page HTTP fetch.  On success the parsed
markup is abstracted as a function from a CSS selector to the list of
matching elements in document order; the failure constructors are the
`requests.exceptions.RequestException` subclasses the source can see
(timeout, connection failure, and the non-2xx `HTTPError` raised by
`raise_for_status`). -/
inductive ListingFetch where
  | success : (String → List Elem) → ListingFetch
  | timeout : ListingFetch
  | connectionError : ListingFetch
  | httpError : ℕ → ListingFetch

/-- `clean_url` from the source.  The external `urllib.parse.urljoin`
is abstracted as the parameter `urljoin`.  A missing or empty link is
falsy in Python and yields `None`; an absolute link (starting with
`"http"`) is kept; a relative link is joined to the base URL. -/
def clean_url (urljoin : String → String → String) (base_url : String)
    (link : Option String) : Option String :=
  match link with
  | none => none
  | some l =>
    if l = "" then none
    else if pyStartsWith l "http" then some l
    else some (urljoin base_url l)

/-- `scrape_articles` from the source.  The HTTP layer is abstracted
as `fetch`.  On success: take the trimmed texts of the first 10
title-selector matches and the cleaned hrefs of the first 10
link-selector matches, pad the links with `None` up to the number of
titles, pair positionally, and drop pairs with a falsy (empty) title.
Any request failure is caught and yields `[]`. -/
def scrape_articles (fetch : String → ListingFetch)
    (urljoin : String → String → String)
    (url title_selector link_selector : String) (base_url : String) :
    List (String × Option String) :=
  match fetch url with
  | .success page =>
    let titles := ((page title_selector).map (fun e => e.text)).take 10
    let links := ((page link_selector).map
      (fun e => clean_url urljoin base_url e.href)).take 10
    let links := if links.length < titles.length
      then links ++ List.replicate (titles.length - links.length) none
      else links
    (titles.zip links).filter (fun p => p.1 != "")
  | _ => []

/-- An article page as the content extractor sees it:
`articleParagraphs` is the list of trimmed `<p>` texts inside the
`<article>` tag when that tag is present, `allParagraphs` the trimmed
`<p>` texts of the whole document, `titleText` the trimmed `<title>`
text when that tag is present, and the two meta fields hold the
`content` attribute of the corresponding `<meta>` tag when the tag is
present and carries the attribute (the source treats a missing tag and
a missing/empty attribute alike). -/
structure ArticlePage where
  articleParagraphs : Option (List String)
  allParagraphs : List String
  titleText : Option String
  descriptionContent : Option String
  keywordsContent : Option String

/-- The outcome of the article-page HTTP fetch: success with the
parsed page, `requests.exceptions.Timeout`, or any other exception
carrying its message `str(e)`. -/
inductive ContentFetch where
  | success : ArticlePage → ContentFetch
  | timeout : ContentFetch
  | failure : String → ContentFetch

/-- `fetch_article_content` from the source.  A falsy URL (absent or
empty) returns the `"No URL provided."` sentinel without any request;
a timeout and any other exception are caught and mapped to
error-sentinel bodies with `None` metadata.  On success the body is
the space-join of the paragraphs (from the `<article>` tag when
present, else the whole document) whose trimmed text exceeds 50
characters, with the `"No relevant content found."` sentinel when that
join is empty; the three metadata fields fall back to their
`"No Title"`/`"No Description"`/`"No Keywords"` defaults. -/
def fetch_article_content (fetch : String → ContentFetch) (url : Option String) :
    String × Option String × Option String × Option String :=
  match url with
  | none => ("No URL provided.", none, none, none)
  | some u =>
    if u = "" then ("No URL provided.", none, none, none)
    else
      match fetch u with
      | .timeout => ("Error: Request timed out.", none, none, none)
      | .failure e => ("Error fetching content: " ++ e, none, none, none)
      | .success page =>
        let paragraphs := match page.articleParagraphs with
          | some ps => ps
          | none => page.allParagraphs
        let content := joinWith " " (paragraphs.filter (fun p => 50 < p.length))
        let content := if content = "" then "No relevant content found." else content
        let meta_title := match page.titleText with
          | some t => t
          | none => "No Title"
        let meta_description := match page.descriptionContent with
          | some c => if c = "" then "No Description" else c
          | none => "No Description"
        let meta_keywords := match page.keywordsContent with
          | some c => if c = "" then "No Keywords" else c
          | none => "No Keywords"
        (content, some meta_title, some meta_description, some meta_keywords)

/-- The body construction of the content extractor as the spec words
it (section 4.3): take the paragraph nodes of the article container
when present, else of the whole document; keep those whose trimmed
text exceeds 50 characters; join with single spaces; substitute the
sentinel when nothing is kept. -/
def spec_body (articleParagraphs : Option (List String))
    (allParagraphs : List String) : String :=
  let nodes := match articleParagraphs with
    | some ps => ps
    | none => allParagraphs
  let kept := nodes.filter (fun p => 50 < p.length)
  if kept = [] then "No relevant content found." else joinWith " " kept

theorem mem_dedupFirstAux (w : String) :
    ∀ (l seen : List String), w ∈ dedupFirstAux seen l ↔ w ∈ l ∧ w ∉ seen := by
  intro l
  induction l with
  | nil => intro seen; simp [dedupFirstAux]
  | cons x xs ih =>
    intro seen
    by_cases hx : seen.contains x
    · rw [dedupFirstAux, if_pos hx, ih]
      have hxs : x ∈ seen := by simpa using hx
      constructor
      · rintro ⟨h1, h2⟩; exact ⟨List.mem_cons_of_mem _ h1, h2⟩
      · rintro ⟨h1, h2⟩
        rcases List.mem_cons.mp h1 with h | h
        · exact absurd (h ▸ hxs) h2
        · exact ⟨h, h2⟩
    · rw [dedupFirstAux, if_neg hx]
      have hxs : x ∉ seen := by simpa using hx
      rw [List.mem_cons, ih]
      constructor
      · rintro (h | ⟨h1, h2⟩)
        · subst h; exact ⟨List.mem_cons_self _ _, hxs⟩
        · exact ⟨List.mem_cons_of_mem _ h1, fun hc => h2 (List.mem_cons_of_mem _ hc)⟩
      · rintro ⟨h1, h2⟩
        rcases List.mem_cons.mp h1 with h | h
        · exact Or.inl h
        · by_cases hwx : w = x
          · exact Or.inl hwx
          · exact Or.inr ⟨h, fun hc => (List.mem_cons.mp hc).elim hwx h2⟩

theorem mem_dedupFirst (w : String) (l : List String) :
    w ∈ dedupFirst l ↔ w ∈ l := by
  rw [dedupFirst, mem_dedupFirstAux]
  simp

theorem nodup_dedupFirstAux :
    ∀ (l seen : List String), (dedupFirstAux seen l).Nodup := by
  intro l
  induction l with
  | nil => intro seen; simp [dedupFirstAux]
  | cons x xs ih =>
    intro seen
    by_cases hx : seen.contains x
    · rw [dedupFirstAux, if_pos hx]; exact ih seen
    · rw [dedupFirstAux, if_neg hx]
      refine List.nodup_cons.mpr ⟨fun hc => ?_, ih _⟩
      exact ((mem_dedupFirstAux x xs _).mp hc).2 (List.mem_cons_self _ _)

theorem nodup_dedupFirst (l : List String) : (dedupFirst l).Nodup :=
  nodup_dedupFirstAux l []

/-- First-occurrence deduplication is a permutation of Mathlib's
`List.dedup` (the two keep different representatives but the same set,
without duplicates). -/
theorem dedupFirst_perm_dedup (l : List String) :
    List.Perm (dedupFirst l) l.dedup := by
  rw [List.perm_ext_iff_of_nodup (nodup_dedupFirst l) l.nodup_dedup]
  intro a
  rw [mem_dedupFirst, List.mem_dedup]

/-- The keyword-density list computed by `analyze_seo`, written with
the named token pipeline. -/
theorem analyze_seo_fst (stop : List String) (fre fkg : String → ℚ)
    (text : String) :
    (analyze_seo stop fre fkg text).1 =
      (dedupFirst (filtered_words stop text)).filterMap (fun w =>
        if 2 < (filtered_words stop text).count w
        then some (w, roundTo 2 (((filtered_words stop text).count w : ℚ) /
          (word_count text) * 100))
        else none) := by
  simp only [analyze_seo, filtered_words, cleaned_words, word_count]
  split_ifs with h1 h2
  · subst h1; rfl
  · rw [List.length_eq_zero.mp h2]; rfl
  · rfl

/-- Membership in the keyword-density mapping: exactly the retained
normalized tokens that occur strictly more than twice, valued at
`round(count / word_count * 100, 2)`. -/
theorem mem_keyword_density (stop : List String) (fre fkg : String → ℚ)
    (text w : String) (q : ℚ) :
    (w, q) ∈ (analyze_seo stop fre fkg text).1 ↔
      w ∈ filtered_words stop text ∧
      2 < (filtered_words stop text).count w ∧
      q = roundTo 2 (((filtered_words stop text).count w : ℚ) /
        (word_count text) * 100) := by
  rw [analyze_seo_fst]
  constructor
  · intro h
    rcases List.mem_filterMap.mp h with ⟨a, ha, hfa⟩
    by_cases hc : 2 < (filtered_words stop text).count a
    · rw [if_pos hc] at hfa
      simp only [Option.some.injEq, Prod.mk.injEq] at hfa
      obtain ⟨haw, hq⟩ := hfa
      subst haw
      exact ⟨(mem_dedupFirst _ _).mp ha, hc, hq.symm⟩
    · rw [if_neg hc] at hfa
      exact absurd hfa (by simp)
  · rintro ⟨hw, hc, hq⟩
    exact List.mem_filterMap.mpr
      ⟨w, (mem_dedupFirst _ _).mpr hw, by rw [if_pos hc, hq]⟩

/-- Rounding cannot cross an integer from below. -/
theorem roundTo_le_intCast (n : ℕ) (q : ℚ) (k : ℤ) (h : q ≤ k) :
    roundTo n q ≤ k := by
  have hp : (0 : ℚ) < 10 ^ n := by positivity
  have hq : q * 10 ^ n ≤ (k : ℚ) * 10 ^ n :=
    mul_le_mul_of_nonneg_right h (le_of_lt hp)
  have h1 : (pyround (q * 10 ^ n) : ℚ) ≤ (k : ℚ) * 10 ^ n + 1/2 :=
    le_trans (pyround_le_add_half _) (by linarith)
  have h2 : pyround (q * 10 ^ n) ≤ k * 10 ^ n := by
    have hlt : (pyround (q * 10 ^ n) : ℚ) < ((k * 10 ^ n : ℤ) : ℚ) + 1 := by
      push_cast
      linarith
    exact Int.lt_add_one_iff.mp (by exact_mod_cast hlt)
  rw [roundTo, div_le_iff₀ hp]
  calc (pyround (q * 10 ^ n) : ℚ) ≤ ((k * 10 ^ n : ℤ) : ℚ) := by exact_mod_cast h2
    _ = (k : ℚ) * 10 ^ n := by push_cast; ring

/-- Rounding cannot cross an integer from above. -/
theorem intCast_le_roundTo (n : ℕ) (q : ℚ) (k : ℤ) (h : (k : ℚ) ≤ q) :
    (k : ℚ) ≤ roundTo n q := by
  have hp : (0 : ℚ) < 10 ^ n := by positivity
  have hq : (k : ℚ) * 10 ^ n ≤ q * 10 ^ n :=
    mul_le_mul_of_nonneg_right h (le_of_lt hp)
  have h1 : (k : ℚ) * 10 ^ n - 1/2 ≤ (pyround (q * 10 ^ n) : ℚ) :=
    le_trans (by linarith) (sub_half_le_pyround _)
  have h2 : k * 10 ^ n ≤ pyround (q * 10 ^ n) := by
    have hlt : ((k * 10 ^ n : ℤ) : ℚ) - 1 < (pyround (q * 10 ^ n) : ℚ) := by
      push_cast
      linarith
    have := Int.sub_one_lt_iff.mp (by exact_mod_cast hlt)
    exact_mod_cast this
  rw [roundTo, le_div_iff₀ hp]
  calc (k : ℚ) * 10 ^ n = ((k * 10 ^ n : ℤ) : ℚ) := by push_cast; ring
    _ ≤ (pyround (q * 10 ^ n) : ℚ) := by exact_mod_cast h2

/-- Claim C1: for every input text, `analyze_sentiment` returns a
value in `[-1.0, 1.0]` that is a multiple of `0.001` (rounded to 3
decimals); if the text is empty or begins with the literal prefix
`"Error"` it returns `0.0` without invoking the sentiment model (the
result is the same for every model), and in particular the empty text
and `"Error: Request timed out."` map to `0.0`.  The external model is
any `polarity` function with values in `[-1.0, 1.0]`, as the spec
describes the TextBlob polarity. -/
theorem claim_C1 (polarity : String → ℚ)
    (hpol : ∀ t, -1 ≤ polarity t ∧ polarity t ≤ 1) (text : String) :
    (-1 ≤ analyze_sentiment polarity text ∧
      analyze_sentiment polarity text ≤ 1) ∧
    (∃ m : ℤ, analyze_sentiment polarity text = (m : ℚ) / 1000) ∧
    ((text = "" ∨ pyStartsWith text "Error") →
      ∀ model : String → ℚ, analyze_sentiment model text = 0) ∧
    analyze_sentiment polarity "" = 0 ∧
    analyze_sentiment polarity "Error: Request timed out." = 0 := by
  have hguard : ∀ (model : String → ℚ) t,
      (t = "" ∨ pyStartsWith t "Error") → analyze_sentiment model t = 0 := by
    intro model t ht
    rw [analyze_sentiment, if_pos ht]
  refine ⟨?_, ?_, fun ht model => hguard model text ht,
    hguard polarity "" (Or.inl rfl),
    hguard polarity "Error: Request timed out." (Or.inr (by decide))⟩
  · by_cases hc : text = "" ∨ pyStartsWith text "Error"
    · rw [analyze_sentiment, if_pos hc]
      norm_num
    · rw [analyze_sentiment, if_neg hc]
      obtain ⟨hl, hr⟩ := hpol text
      constructor
      · have := intCast_le_roundTo 3 (polarity text) (-1) (by exact_mod_cast hl)
        exact_mod_cast this
      · have := roundTo_le_intCast 3 (polarity text) 1 (by exact_mod_cast hr)
        exact_mod_cast this
  · by_cases hc : text = "" ∨ pyStartsWith text "Error"
    · exact ⟨0, by rw [analyze_sentiment, if_pos hc]; norm_num⟩
    · refine ⟨pyround (polarity text * 10 ^ 3), ?_⟩
      rw [analyze_sentiment, if_neg hc, roundTo]
      norm_num

/-- Witness for C1 at the concrete model `fun _ => 1/2` (which
satisfies the polarity bounds) and the concrete text
`"Error: Request timed out."`. -/
theorem claim_C1_witness :
    (-1 ≤ analyze_sentiment (fun _ => 1/2) "Error: Request timed out." ∧
      analyze_sentiment (fun _ => 1/2) "Error: Request timed out." ≤ 1) ∧
    (∃ m : ℤ, analyze_sentiment (fun _ => 1/2) "Error: Request timed out." =
      (m : ℚ) / 1000) ∧
    (("Error: Request timed out." = "" ∨
        pyStartsWith "Error: Request timed out." "Error") →
      ∀ model : String → ℚ,
        analyze_sentiment model "Error: Request timed out." = 0) ∧
    analyze_sentiment (fun _ => 1/2) "" = 0 ∧
    analyze_sentiment (fun _ => 1/2) "Error: Request timed out." = 0 :=
  claim_C1 (fun _ => 1/2) (fun _ => by norm_num) "Error: Request timed out."

/-- Claim C3: for every listing-page markup and every pair of selector
rules (and every fetch outcome), `scrape_articles` returns at most 10
pairs and no returned pair has an empty title. -/
theorem claim_C3 (fetch : String → ListingFetch)
    (urljoin : String → String → String)
    (url title_selector link_selector base_url : String) :
    (scrape_articles fetch urljoin url title_selector link_selector
      base_url).length ≤ 10 ∧
    ∀ p ∈ scrape_articles fetch urljoin url title_selector link_selector
      base_url, p.1 ≠ "" := by
  cases hf : fetch url with
  | success page =>
    constructor
    · simp only [scrape_articles, hf]
      refine le_trans (List.length_filter_le _ _) ?_
      rw [List.length_zip]
      exact le_trans (min_le_left _ _) (by
        exact le_trans (List.length_take_le _ _) le_rfl)
    · intro p hp
      simp only [scrape_articles, hf] at hp
      have := List.of_mem_filter hp
      simpa using this
  | timeout => simp [scrape_articles, hf]
  | connectionError => simp [scrape_articles, hf]
  | httpError s => simp [scrape_articles, hf]

/-- Claim C9: every request failure in `scrape_articles` (timeout,
connection error, non-2xx HTTP status) yields the empty list; the
exception never escapes (in the embedding, `scrape_articles` is a
total function and every non-success branch returns `[]`). -/
theorem claim_C9 (fetch : String → ListingFetch)
    (urljoin : String → String → String)
    (url title_selector link_selector base_url : String)
    (h : fetch url = .timeout ∨ fetch url = .connectionError ∨
      ∃ s, fetch url = .httpError s) :
    scrape_articles fetch urljoin url title_selector link_selector
      base_url = [] := by
  rcases h with h | h | ⟨s, h⟩ <;> simp [scrape_articles, h]

/-- Witness for C9 at a concrete always-timing-out fetch. -/
theorem claim_C9_witness :
    scrape_articles (fun _ => .timeout) (fun b l => b ++ l)
      "https://abcnews.go.com/Politics" "h2 a.AnchorLink" "h2 a.AnchorLink"
      "https://abcnews.go.com" = [] :=
  claim_C9 _ _ _ _ _ _ (Or.inl rfl)

/-- Claim C6: `fetch_article_content` never raises (it is a total
function of the fetch outcome): an absent URL yields
`("No URL provided.", None, None, None)` without performing any
request (an empty URL, falsy in Python, the same); a timeout yields
`("Error: Request timed out.", None, None, None)`; any other error
yields an error-prefixed body carrying the exception detail, with
`None` for the three metadata fields. -/
theorem claim_C6 :
    (∀ fetch : String → ContentFetch,
      fetch_article_content fetch none =
        ("No URL provided.", none, none, none)) ∧
    (∀ fetch : String → ContentFetch,
      fetch_article_content fetch (some "") =
        ("No URL provided.", none, none, none)) ∧
    (∀ (fetch : String → ContentFetch) (u : String), u ≠ "" →
      fetch u = .timeout →
      fetch_article_content fetch (some u) =
        ("Error: Request timed out.", none, none, none)) ∧
    (∀ (fetch : String → ContentFetch) (u e : String), u ≠ "" →
      fetch u = .failure e →
      fetch_article_content fetch (some u) =
        ("Error fetching content: " ++ e, none, none, none) ∧
      pyStartsWith ("Error fetching content: " ++ e) "Error" = true) := by
  refine ⟨fun fetch => rfl, fun fetch => rfl, ?_, ?_⟩
  · intro fetch u hu hf
    simp only [fetch_article_content, if_neg hu, hf]
  · intro fetch u e hu hf
    refine ⟨by simp only [fetch_article_content, if_neg hu, hf], ?_⟩
    have h1 : List.IsPrefix "Error".data "Error fetching content: ".data := by
      refine List.isPrefixOf_iff_prefix.mp ?_
      decide
    have h2 : List.IsPrefix "Error".data ("Error fetching content: " ++ e).data := by
      rw [String.data_append]
      exact h1.trans (List.prefix_append _ _)
    exact List.isPrefixOf_iff_prefix.mpr h2

/-- Witness for C6: a URL-less call, an always-timing-out fetch and an
always-failing fetch, each at concrete inputs. -/
theorem claim_C6_witness :
    fetch_article_content (fun _ => ContentFetch.timeout) none =
      ("No URL provided.", none, none, none) ∧
    fetch_article_content (fun _ => ContentFetch.timeout)
      (some "https://abcnews.go.com/story") =
      ("Error: Request timed out.", none, none, none) ∧
    fetch_article_content (fun _ => ContentFetch.failure "boom")
      (some "https://abcnews.go.com/story") =
      ("Error fetching content: " ++ "boom", none, none, none) :=
  ⟨claim_C6.1 _,
   (claim_C6.2.2.1 (fun _ => ContentFetch.timeout)
      "https://abcnews.go.com/story" (by decide) rfl),
   (claim_C6.2.2.2 (fun _ => ContentFetch.failure "boom")
      "https://abcnews.go.com/story" "boom" (by decide) rfl).1⟩

/-- The left-fold that joins strings with a separator never shrinks
its accumulator. -/
theorem length_le_joinFoldl (sep : String) :
    ∀ (xs : List String) (x : String),
      x.length ≤ (xs.foldl (fun acc s => acc ++ sep ++ s) x).length := by
  intro xs
  induction xs with
  | nil => intro x; exact le_rfl
  | cons y ys ih =>
    intro x
    refine le_trans ?_ (ih (x ++ sep ++ y))
    simp only [String.length_append]
    omega

/-- A space-join of a nonempty list of kept paragraphs is nonempty,
because every kept paragraph has more than 50 characters; hence the
source's emptiness test on the joined string agrees with the spec's
emptiness test on the kept list. -/
theorem body_if_eq (paras : List String) :
    (if joinWith " " (paras.filter (fun p => 50 < p.length)) = ""
      then "No relevant content found."
      else joinWith " " (paras.filter (fun p => 50 < p.length))) =
    (if paras.filter (fun p => 50 < p.length) = []
      then "No relevant content found."
      else joinWith " " (paras.filter (fun p => 50 < p.length))) := by
  cases hk : paras.filter (fun p => 50 < p.length) with
  | nil => simp [joinWith]
  | cons x xs =>
    have hx : x ∈ paras.filter (fun p => 50 < p.length) :=
      hk ▸ List.mem_cons_self _ _
    have h50 : 50 < x.length := by simpa using List.of_mem_filter hx
    have hne : joinWith " " (x :: xs) ≠ "" := by
      intro hcontra
      have hlen : x.length ≤ (joinWith " " (x :: xs)).length := by
        rw [joinWith]
        exact length_le_joinFoldl " " xs x
      rw [hcontra] at hlen
      simp at hlen
      omega
    simp [hne]

/-- Filtering the positional pairs on nonempty titles, when there are
at least as many links as titles, keeps one pair per nonempty title. -/
theorem zip_filter_length :
    ∀ (T : List String) (L : List (Option String)), T.length ≤ L.length →
      ((T.zip L).filter (fun p => p.1 != "")).length =
        T.countP (fun t => t != "") := by
  intro T
  induction T with
  | nil => intro L _; simp
  | cons t ts ih =>
    intro L hTL
    cases L with
    | nil => simp at hTL
    | cons l Ls =>
      have hts : ts.length ≤ Ls.length := by
        simpa using hTL
      by_cases ht : (t != "") = true
      · simp [List.filter_cons, List.countP_cons, ht, ih Ls hts]
      · simp [List.filter_cons, List.countP_cons, ht, ih Ls hts]

/-- Claim C5: when the link selector matches fewer elements than the
title selector, the link list is padded with `None` so pairing stays
positional; with all titles nonempty the output is exactly the
positional zip against the padded links.  In particular a page with 3
title elements and 2 link elements yields exactly 3 pairs, the third
with an absent URL. -/
theorem claim_C5 :
    (∀ (fetch : String → ListingFetch) (urljoin : String → String → String)
        (url title_selector link_selector base_url : String)
        (page : String → List Elem)
        (T : List String) (L : List (Option String)),
      fetch url = .success page →
      T = ((page title_selector).map (fun e => e.text)).take 10 →
      L = ((page link_selector).map
        (fun e => clean_url urljoin base_url e.href)).take 10 →
      L.length < T.length →
      (∀ t ∈ T, t ≠ "") →
      scrape_articles fetch urljoin url title_selector link_selector base_url =
        T.zip (L ++ List.replicate (T.length - L.length) none)) ∧
    (∀ (e1 e2 e3 f1 f2 : Elem) (urljoin : String → String → String)
        (url base_url : String),
      e1.text ≠ "" → e2.text ≠ "" → e3.text ≠ "" →
      scrape_articles
        (fun _ => .success (fun s =>
          if s = "T" then [e1, e2, e3] else if s = "L" then [f1, f2] else []))
        urljoin url "T" "L" base_url =
        [(e1.text, clean_url urljoin base_url f1.href),
         (e2.text, clean_url urljoin base_url f2.href),
         (e3.text, none)]) := by
  constructor
  · intro fetch urljoin url title_selector link_selector base_url page T L
      hf hT hL hlen htitles
    simp only [scrape_articles, hf, ← hT, ← hL, if_pos hlen]
    apply List.filter_eq_self.mpr
    intro p hp
    have hh := (List.of_mem_zip hp).1
    exact bne_iff_ne.mpr (htitles p.1 hh)
  · intro e1 e2 e3 f1 f2 urljoin url base_url h1 h2 h3
    have hb1 : (e1.text != "") = true := bne_iff_ne.mpr h1
    have hb2 : (e2.text != "") = true := bne_iff_ne.mpr h2
    have hb3 : (e3.text != "") = true := bne_iff_ne.mpr h3
    simp [scrape_articles, List.take, List.zip, List.zipWith,
      List.filter_cons, hb1, hb2, hb3]

/-- Witness for C5 at concrete elements: three titled elements, two
links, and the identity-style join. -/
theorem claim_C5_witness :
    scrape_articles
      (fun _ => .success (fun s =>
        if s = "T" then
          [⟨"Story one", some "/one"⟩, ⟨"Story two", some "/two"⟩,
           ⟨"Story three", none⟩]
        else if s = "L" then
          [⟨"Story one", some "/one"⟩, ⟨"Story two", some "/two"⟩]
        else []))
      (fun b l => b ++ l) "https://abcnews.go.com/Politics" "T" "L"
      "https://abcnews.go.com" =
      [("Story one", some "https://abcnews.go.com/one"),
       ("Story two", some "https://abcnews.go.com/two"),
       ("Story three", none)] := by
  rw [claim_C5.2 ⟨"Story one", some "/one"⟩ ⟨"Story two", some "/two"⟩
    ⟨"Story three", none⟩ ⟨"Story one", some "/one"⟩
    ⟨"Story two", some "/two"⟩ (fun b l => b ++ l)
    "https://abcnews.go.com/Politics" "https://abcnews.go.com"
    (by decide) (by decide) (by decide)]
  decide

/-- Claim C10 (implicit): when the link selector matches more elements
than the title selector, the excess links are silently dropped: the
output is the positional zip truncated at the titles, its length is
the number of nonempty (truncated-to-10) titles, and the i-th link is
paired with the i-th title. -/
theorem claim_C10 (fetch : String → ListingFetch)
    (urljoin : String → String → String)
    (url title_selector link_selector base_url : String)
    (page : String → List Elem)
    (T : List String) (L : List (Option String))
    (hf : fetch url = .success page)
    (hT : T = ((page title_selector).map (fun e => e.text)).take 10)
    (hL : L = ((page link_selector).map
      (fun e => clean_url urljoin base_url e.href)).take 10)
    (hmore : (page title_selector).length < (page link_selector).length) :
    scrape_articles fetch urljoin url title_selector link_selector base_url =
      (T.zip L).filter (fun p => p.1 != "") ∧
    (scrape_articles fetch urljoin url title_selector link_selector
      base_url).length = T.countP (fun t => t != "") ∧
    ∀ (i : ℕ) (hiT : i < T.length) (hiL : i < L.length),
      T.get ⟨i, hiT⟩ ≠ "" →
      (T.get ⟨i, hiT⟩, L.get ⟨i, hiL⟩) ∈
        scrape_articles fetch urljoin url title_selector link_selector
          base_url := by
  have hTL : T.length ≤ L.length := by
    rw [hT, hL]
    simp only [List.length_take, List.length_map]
    exact min_le_min le_rfl (le_of_lt hmore)
  have heq : scrape_articles fetch urljoin url title_selector link_selector
      base_url = (T.zip L).filter (fun p => p.1 != "") := by
    simp only [scrape_articles, hf, ← hT, ← hL, if_neg (not_lt.mpr hTL)]
  refine ⟨heq, ?_, ?_⟩
  · rw [heq]
    exact zip_filter_length T L hTL
  · intro i hiT hiL hne
    rw [heq]
    apply List.mem_filter.mpr
    constructor
    · have hzip : i < (T.zip L).length := by
        rw [List.length_zip]
        exact lt_min hiT hiL
      have hmem : (T.zip L)[i] ∈ T.zip L := List.getElem_mem hzip
      simpa [List.getElem_zip, List.get_eq_getElem] using hmem
    · exact bne_iff_ne.mpr hne

/-- Witness for C10: four link elements against three title elements;
the fourth link is dropped and pairing stays positional. -/
theorem claim_C10_witness :
    scrape_articles
      (fun _ => .success (fun s =>
        if s = "T" then
          [⟨"Story one", none⟩, ⟨"", none⟩, ⟨"Story three", none⟩]
        else
          [⟨"x", some "http://a"⟩, ⟨"x", some "http://b"⟩,
           ⟨"x", some "http://c"⟩, ⟨"x", some "http://d"⟩]))
      (fun b l => b ++ l) "https://abcnews.go.com/Tech" "T" "L"
      "https://abcnews.go.com" =
      ([("Story one", some "http://a"), ("", some "http://b"),
        ("Story three", some "http://c")].filter (fun p => p.1 != "")) ∧
    (scrape_articles
      (fun _ => .success (fun s =>
        if s = "T" then
          [⟨"Story one", none⟩, ⟨"", none⟩, ⟨"Story three", none⟩]
        else
          [⟨"x", some "http://a"⟩, ⟨"x", some "http://b"⟩,
           ⟨"x", some "http://c"⟩, ⟨"x", some "http://d"⟩]))
      (fun b l => b ++ l) "https://abcnews.go.com/Tech" "T" "L"
      "https://abcnews.go.com").length =
      ([("Story one" : String), "", "Story three"].countP
        (fun t => t != "")) := by
  have h := claim_C10
    (fun _ => .success (fun s =>
      if s = "T" then
        [⟨"Story one", none⟩, ⟨"", none⟩, ⟨"Story three", none⟩]
      else
        [⟨"x", some "http://a"⟩, ⟨"x", some "http://b"⟩,
         ⟨"x", some "http://c"⟩, ⟨"x", some "http://d"⟩]))
    (fun b l => b ++ l) "https://abcnews.go.com/Tech" "T" "L"
    "https://abcnews.go.com" _
    [("Story one" : String), "", "Story three"]
    [some "http://a", some "http://b", some "http://c", some "http://d"]
    rfl (by decide) (by decide) (by decide)
  exact ⟨by rw [h.1]; decide, by rw [h.2.1]⟩

/-- The density value of a token occurring 3 times among 5 words:
`round(3 / 5 * 100, 2) = 60.0`. -/
theorem roundTo_three_fifths :
    roundTo 2 (((3 : ℕ) : ℚ) / ((5 : ℕ) : ℚ) * 100) = 60 := by
  have h : (((3 : ℕ) : ℚ) / ((5 : ℕ) : ℚ) * 100) * 10 ^ 2 = ((6000 : ℤ) : ℚ) := by
    push_cast
    norm_num
  rw [roundTo, h, pyround_intCast]
  norm_num

/-- Claim C2: for every non-empty text, the keyword-density mapping of
`analyze_seo` contains exactly the normalized (punctuation-stripped,
lowercased) non-empty non-stopword tokens whose frequency is strictly
greater than 2, each mapped to `round(100 * frequency / word_count,
2)` with `word_count` the raw whitespace token count; in particular
`"word word word test test"` yields the density `{"word": 60.0}`,
with `"test"` (frequency 2) excluded. -/
theorem claim_C2 :
    (∀ (fre fkg : String → ℚ) (text : String), text ≠ "" →
      ∀ (w : String) (q : ℚ),
        (w, q) ∈ (analyze_seo english_stopwords fre fkg text).1 ↔
          (w ∈ filtered_words english_stopwords text ∧
           2 < (filtered_words english_stopwords text).count w ∧
           q = roundTo 2
             (((filtered_words english_stopwords text).count w : ℚ) /
               (word_count text) * 100))) ∧
    ∀ fre fkg : String → ℚ,
      (analyze_seo english_stopwords fre fkg "word word word test test").1 =
        [("word", 60)] := by
  constructor
  · intro fre fkg text _ w q
    exact mem_keyword_density english_stopwords fre fkg text w q
  · intro fre fkg
    have h : (analyze_seo english_stopwords fre fkg
        "word word word test test").1 =
        [("word", roundTo 2 (((3 : ℕ) : ℚ) / ((5 : ℕ) : ℚ) * 100))] := rfl
    rw [h, roundTo_three_fifths]

/-- Witness for C2: the pair `("word", 60.0)` is in the density
mapping of the scenario text, through the membership characterization
at the concrete token. -/
theorem claim_C2_witness :
    ("word", (60 : ℚ)) ∈ (analyze_seo english_stopwords (fun _ => 0)
      (fun _ => 0) "word word word test test").1 := by
  rw [claim_C2.1 (fun _ => (0 : ℚ)) (fun _ => (0 : ℚ))
    "word word word test test" (by decide) "word" 60]
  refine ⟨by decide, by decide, ?_⟩
  have hc : (filtered_words english_stopwords
      "word word word test test").count "word" = (3 : ℕ) := rfl
  have hw : word_count "word word word test test" = (5 : ℕ) := rfl
  rw [hc, hw, roundTo_three_fifths]

/-- Claim C4 (amended): `analyze_sentiment` returns `0.0` on every
empty or `"Error"`-prefixed body; `analyze_seo` on the empty text
returns `({}, "N/A", "N/A")`; the density mapping is empty on each of
the sentinel bodies the pipeline actually produces
(`"Error: Request timed out."`, `"No relevant content found."`,
`"No URL provided."`), and in general it is empty exactly when no
retained token occurs more than twice.  (The original claim's
universal statements fail: an arbitrary `"Error"`-prefixed body can
have nonempty density, and `"No relevant content found."` is scored by
the sentiment model rather than forced to `0.0` — see the
counterexample.) -/
theorem claim_C4_amended :
    (∀ (polarity : String → ℚ) (text : String),
      (text = "" ∨ pyStartsWith text "Error") →
      analyze_sentiment polarity text = 0) ∧
    (∀ fre fkg : String → ℚ,
      analyze_seo english_stopwords fre fkg "" = ([], .na, .na)) ∧
    (∀ fre fkg : String → ℚ,
      (analyze_seo english_stopwords fre fkg
        "Error: Request timed out.").1 = []) ∧
    (∀ fre fkg : String → ℚ,
      (analyze_seo english_stopwords fre fkg
        "No relevant content found.").1 = []) ∧
    (∀ fre fkg : String → ℚ,
      (analyze_seo english_stopwords fre fkg "No URL provided.").1 = []) ∧
    (∀ (fre fkg : String → ℚ) (text : String),
      (analyze_seo english_stopwords fre fkg text).1 = [] ↔
      ∀ w ∈ filtered_words english_stopwords text,
        (filtered_words english_stopwords text).count w ≤ 2) := by
  refine ⟨?_, fun fre fkg => rfl, fun fre fkg => rfl, fun fre fkg => rfl,
    fun fre fkg => rfl, ?_⟩
  · intro polarity text ht
    rw [analyze_sentiment, if_pos ht]
  · intro fre fkg text
    constructor
    · intro hnil w hw
      by_contra hc
      have hlt : 2 < (filtered_words english_stopwords text).count w :=
        lt_of_not_le hc
      have hmem := (mem_keyword_density english_stopwords fre fkg text w
        (roundTo 2 (((filtered_words english_stopwords text).count w : ℚ) /
          (word_count text) * 100))).mpr ⟨hw, hlt, rfl⟩
      rw [hnil] at hmem
      exact List.not_mem_nil _ hmem
    · intro hle
      rw [analyze_seo_fst]
      apply List.filterMap_eq_nil_iff.mpr
      intro a ha
      have haf : a ∈ filtered_words english_stopwords text :=
        (mem_dedupFirst _ _).mp ha
      rw [if_neg]
      exact not_lt_of_le (hle a haf)

/-- Witness for C4 (amended) at concrete inputs: the timeout sentinel
body has sentiment `0.0`, and a text whose retained tokens occur at
most twice has empty density. -/
theorem claim_C4_witness :
    analyze_sentiment (fun _ => 1/2) "Error: Request timed out." = 0 ∧
    (analyze_seo english_stopwords (fun _ => 0) (fun _ => 0)
      "breaking news breaking news").1 = [] :=
  ⟨claim_C4_amended.1 (fun _ => 1/2) "Error: Request timed out."
      (Or.inr (by decide)),
   (claim_C4_amended.2.2.2.2.2 (fun _ => 0) (fun _ => 0)
      "breaking news breaking news").mpr (by decide)⟩

/-- Counterexample for C4 as stated: the `"Error"`-prefixed body
`"Error banana banana banana"` has a nonempty keyword-density mapping
(`"banana"` occurs 3 times), and the body
`"No relevant content found."` is passed to the sentiment model, whose
value it returns (here a model constantly `1/2` gives `0.5`, not
`0.0`). -/
theorem claim_C4_counterexample :
    pyStartsWith "Error banana banana banana" "Error" = true ∧
    (analyze_seo english_stopwords (fun _ => 0) (fun _ => 0)
      "Error banana banana banana").1 ≠ [] ∧
    analyze_sentiment (fun _ => 1/2) "No relevant content found." = 1/2 ∧
    ((1 : ℚ)/2 ≠ 0) := by
  refine ⟨by decide, ?_, ?_, by norm_num⟩
  · have h : (analyze_seo english_stopwords (fun _ => (0:ℚ)) (fun _ => (0:ℚ))
        "Error banana banana banana").1 =
        [("banana", roundTo 2 (((3 : ℕ) : ℚ) / ((4 : ℕ) : ℚ) * 100))] := rfl
    rw [h]
    simp
  · rw [analyze_sentiment, if_neg (by decide)]
    have h : (1 : ℚ)/2 * 10 ^ 3 = ((500 : ℤ) : ℚ) := by norm_num
    rw [roundTo, h, pyround_intCast]
    norm_num

/-- Claim C7: on a successful article fetch, the body returned by
`fetch_article_content` is exactly the spec's description: paragraphs
from the `<article>` tag when present, else all paragraphs of the
document; only paragraphs whose trimmed text exceeds 50 characters are
kept; kept paragraphs are joined with single spaces; the sentinel
`"No relevant content found."` is substituted when nothing is kept. -/
theorem claim_C7 (fetch : String → ContentFetch) (u : String)
    (page : ArticlePage) (hu : u ≠ "") (hf : fetch u = .success page) :
    (fetch_article_content fetch (some u)).1 =
      spec_body page.articleParagraphs page.allParagraphs := by
  obtain ⟨ap, allp, tt, dc, kc⟩ := page
  simp only [fetch_article_content, if_neg hu, hf, spec_body]
  cases ap with
  | none => exact body_if_eq allp
  | some ps => exact body_if_eq ps

/-- Witness for C7: a concrete page whose article tag holds one long
and one short paragraph; the body is the long paragraph alone. -/
theorem claim_C7_witness :
    (fetch_article_content
      (fun _ => ContentFetch.success
        ⟨some ["This paragraph is certainly longer than fifty characters in total.",
               "Too short."],
         ["Document-level paragraph that is ignored because the article tag is present."],
         none, none, none⟩)
      (some "https://abcnews.go.com/story")).1 =
      "This paragraph is certainly longer than fifty characters in total." := by
  rw [claim_C7 _ "https://abcnews.go.com/story" _ (by decide) rfl]
  decide

/-- The sum of all values of the keyword-density mapping. -/
def keyword_density_sum (stop : List String) (fre fkg : String → ℚ)
    (text : String) : ℚ :=
  ((analyze_seo stop fre fkg text).1.map Prod.snd).sum

/-- The number of token occurrences whose token has frequency strictly
greater than 2 among the retained (normalized, non-stopword) tokens. -/
def qualifying_occurrences (stop : List String) (text : String) : ℕ :=
  (filtered_words stop text).countP
    (fun w => 2 < (filtered_words stop text).count w)

/-- The number of distinct retained tokens with frequency strictly
greater than 2 (the size of the density mapping). -/
def qualifying_tokens (stop : List String) (text : String) : ℕ :=
  (dedupFirst (filtered_words stop text)).countP
    (fun w => 2 < (filtered_words stop text).count w)

/-- Summing the second components of the density `filterMap` is
summing the density value over the tokens passing the frequency
threshold. -/
theorem sum_filterMap_density (c : String → ℕ) (r : String → ℚ) :
    ∀ d : List String,
      ((d.filterMap (fun w =>
        if 2 < c w then some (w, r w) else none)).map Prod.snd).sum =
      ((d.filter (fun w => 2 < c w)).map r).sum := by
  intro d
  induction d with
  | nil => simp
  | cons x xs ih =>
    by_cases hx : 2 < c x
    · simp [List.filterMap_cons, List.filter_cons, hx, ih]
    · simp [List.filterMap_cons, List.filter_cons, hx, ih]

/-- The count sum over the distinct qualifying tokens equals the
number of qualifying occurrences. -/
theorem sum_counts_eq_occurrences (stop : List String) (text : String) :
    (((dedupFirst (filtered_words stop text)).filter
      (fun w => 2 < (filtered_words stop text).count w)).map
        (fun w => ((filtered_words stop text).count w : ℚ))).sum =
      (qualifying_occurrences stop text : ℚ) := by
  have hperm := ((dedupFirst_perm_dedup (filtered_words stop text)).filter
    (fun w => 2 < (filtered_words stop text).count w)).map
    (fun w => ((filtered_words stop text).count w : ℚ))
  rw [hperm.sum_eq]
  have hnat := List.sum_map_count_dedup_filter_eq_countP
    (fun w => decide (2 < (filtered_words stop text).count w))
    (filtered_words stop text)
  have hcast := congrArg (fun n : ℕ => (n : ℚ)) hnat
  simp only at hcast
  rw [qualifying_occurrences]
  rw [← hcast, Nat.cast_list_sum, List.map_map]
  rfl

/-- Claim C8 (amended): for every text with positive word count, the
sum of the density values is at most
`100 * qualifying_occurrences / word_count` plus a rounding slack of
half a unit in the last place (`0.005`) per distinct qualifying token;
consequently it never exceeds `100` by more than that slack.  (The
original claim, without the slack, is false: each stored value is
rounded to 2 decimals and the roundings can push the sum past the
exact bound and past 100 — see the counterexample.) -/
theorem claim_C8_amended (fre fkg : String → ℚ) (text : String)
    (hwc : 0 < word_count text) :
    keyword_density_sum english_stopwords fre fkg text ≤
      100 * (qualifying_occurrences english_stopwords text : ℚ) /
        word_count text +
      (qualifying_tokens english_stopwords text : ℚ) / 200 ∧
    keyword_density_sum english_stopwords fre fkg text ≤
      100 + (qualifying_tokens english_stopwords text : ℚ) / 200 := by
  have hwcQ : (0 : ℚ) < (word_count text : ℚ) := by exact_mod_cast hwc
  have hA : keyword_density_sum english_stopwords fre fkg text =
      (((dedupFirst (filtered_words english_stopwords text)).filter
        (fun w => 2 < (filtered_words english_stopwords text).count w)).map
        (fun w => roundTo 2
          (((filtered_words english_stopwords text).count w : ℚ) /
            (word_count text) * 100))).sum := by
    rw [keyword_density_sum, analyze_seo_fst]
    exact sum_filterMap_density _ _ _
  have hB : (((dedupFirst (filtered_words english_stopwords text)).filter
        (fun w => 2 < (filtered_words english_stopwords text).count w)).map
        (fun w => roundTo 2
          (((filtered_words english_stopwords text).count w : ℚ) /
            (word_count text) * 100))).sum ≤
      (((dedupFirst (filtered_words english_stopwords text)).filter
        (fun w => 2 < (filtered_words english_stopwords text).count w)).map
        (fun w => (100 / (word_count text : ℚ)) *
          ((filtered_words english_stopwords text).count w : ℚ) + 1/200)).sum := by
    apply List.sum_le_sum
    intro w _
    calc roundTo 2 (((filtered_words english_stopwords text).count w : ℚ) /
          (word_count text) * 100)
        ≤ ((filtered_words english_stopwords text).count w : ℚ) /
          (word_count text) * 100 + 1 / (2 * 10 ^ 2) := roundTo_le 2 _
      _ = (100 / (word_count text : ℚ)) *
          ((filtered_words english_stopwords text).count w : ℚ) + 1/200 := by
          rw [show (1 : ℚ) / (2 * 10 ^ 2) = 1/200 by norm_num]
          ring
  have hC : (((dedupFirst (filtered_words english_stopwords text)).filter
        (fun w => 2 < (filtered_words english_stopwords text).count w)).map
        (fun w => (100 / (word_count text : ℚ)) *
          ((filtered_words english_stopwords text).count w : ℚ) + 1/200)).sum =
      (100 / (word_count text : ℚ)) *
        (qualifying_occurrences english_stopwords text : ℚ) +
      (qualifying_tokens english_stopwords text : ℚ) / 200 := by
    rw [List.sum_map_add, List.sum_map_mul_left, sum_counts_eq_occurrences]
    congr 1
    rw [List.map_const', List.sum_replicate, nsmul_eq_mul,
      qualifying_tokens, List.countP_eq_length_filter]
    ring
  have hmain : keyword_density_sum english_stopwords fre fkg text ≤
      100 * (qualifying_occurrences english_stopwords text : ℚ) /
        (word_count text) +
      (qualifying_tokens english_stopwords text : ℚ) / 200 := by
    rw [hA]
    refine le_trans hB ?_
    rw [hC]
    apply le_of_eq
    ring
  refine ⟨hmain, le_trans hmain ?_⟩
  have hK : (qualifying_occurrences english_stopwords text : ℚ) ≤
      (word_count text : ℚ) := by
    have h1 : qualifying_occurrences english_stopwords text ≤
        (filtered_words english_stopwords text).length :=
      List.countP_le_length _
    have h2 : (filtered_words english_stopwords text).length ≤
        (cleaned_words text).length := List.length_filter_le _ _
    have h3 : (cleaned_words text).length = word_count text := by
      rw [cleaned_words, List.length_map, word_count]
    exact_mod_cast le_trans h1 (h3 ▸ h2)
  have hdiv : 100 * (qualifying_occurrences english_stopwords text : ℚ) /
      (word_count text) ≤ 100 := by
    rw [div_le_iff₀ hwcQ]
    nlinarith
  linarith

/-- Witness for C8 (amended) at the concrete scenario text, where the
word count is positive. -/
theorem claim_C8_witness :
    keyword_density_sum english_stopwords (fun _ => 0) (fun _ => 0)
      "word word word test test" ≤
      100 * (qualifying_occurrences english_stopwords
        "word word word test test" : ℚ) /
        word_count "word word word test test" +
      (qualifying_tokens english_stopwords "word word word test test" : ℚ) /
        200 ∧
    keyword_density_sum english_stopwords (fun _ => 0) (fun _ => 0)
      "word word word test test" ≤
      100 + (qualifying_tokens english_stopwords
        "word word word test test" : ℚ) / 200 :=
  claim_C8_amended (fun _ => 0) (fun _ => 0) "word word word test test"
    (by decide)

/-- Counterexample for C8 as stated: in the 13-word text
`"b b b c c c e e e f f f f"` every word qualifies
(frequencies 3, 3, 3, 4), the exact percentages sum to 100, but the
2-decimal roundings sum to `100.01`, exceeding both the exact bound
`100 * 13 / 13` and `100`. -/
theorem claim_C8_counterexample :
    ¬(keyword_density_sum english_stopwords (fun _ => 0) (fun _ => 0)
        "b b b c c c e e e f f f f" ≤
      100 * (qualifying_occurrences english_stopwords
        "b b b c c c e e e f f f f" : ℚ) /
        word_count "b b b c c c e e e f f f f") ∧
    ¬(keyword_density_sum english_stopwords (fun _ => 0) (fun _ => 0)
        "b b b c c c e e e f f f f" ≤ 100) := by
  have h1 : (analyze_seo english_stopwords (fun _ => (0 : ℚ))
      (fun _ => (0 : ℚ)) "b b b c c c e e e f f f f").1 =
      [("b", roundTo 2 (((3 : ℕ) : ℚ) / ((13 : ℕ) : ℚ) * 100)),
       ("c", roundTo 2 (((3 : ℕ) : ℚ) / ((13 : ℕ) : ℚ) * 100)),
       ("e", roundTo 2 (((3 : ℕ) : ℚ) / ((13 : ℕ) : ℚ) * 100)),
       ("f", roundTo 2 (((4 : ℕ) : ℚ) / ((13 : ℕ) : ℚ) * 100))] := rfl
  have h3 : roundTo 2 (((3 : ℕ) : ℚ) / ((13 : ℕ) : ℚ) * 100) = 2308/100 := by
    have hq : (((3 : ℕ) : ℚ) / ((13 : ℕ) : ℚ) * 100) * 10 ^ 2 = 30000/13 := by
      push_cast
      norm_num
    rw [roundTo, hq, pyround_eq_of_half_lt (30000/13) 2307 (by norm_num)
      (by norm_num) (by norm_num)]
    norm_num
  have h4 : roundTo 2 (((4 : ℕ) : ℚ) / ((13 : ℕ) : ℚ) * 100) = 3077/100 := by
    have hq : (((4 : ℕ) : ℚ) / ((13 : ℕ) : ℚ) * 100) * 10 ^ 2 = 40000/13 := by
      push_cast
      norm_num
    rw [roundTo, hq, pyround_eq_of_half_lt (40000/13) 3076 (by norm_num)
      (by norm_num) (by norm_num)]
    norm_num
  have hsum : keyword_density_sum english_stopwords (fun _ => 0) (fun _ => 0)
      "b b b c c c e e e f f f f" = 10001/100 := by
    rw [keyword_density_sum, h1]
    simp only [List.map_cons, List.map_nil, List.sum_cons, List.sum_nil, h3, h4]
    norm_num
  have hq13 : qualifying_occurrences english_stopwords
      "b b b c c c e e e f f f f" = 13 := by decide
  have hw13 : word_count "b b b c c c e e e f f f f" = 13 := by decide
  rw [hsum, hq13, hw13]
  norm_num

end NewsScraper
